import Mathlib

/-!
# Verification of the sdformat URDF-to-SDF converter and Element tree

A shallow embedding, in Lean 4, of the parts of the `sdformat` code base that
the specification's testable properties talk about:

* the rigid-transform composition helper `TransformToParentFrame`
  (parser_urdf, fixed-joint reduction),
* the fixed-joint reduction traversal `ReduceFixedJoints` and the group
  lumping helpers `ReduceVisualsToParent` / `ReduceCollisionsToParent` /
  `ReduceVisualToParent` / `ReduceCollisionToParent`,
* the extension side-table move `ReduceSDFExtensionToParent`,
* link emission and dropped-link pruning in `CreateSDF`,
* the conversion entry point `URDF2SDF::InitModelString` (with
  `ParseSDFExtension` and `ParseVector3`),
* `Element::Get` three-tier key resolution (SDF.hh), and
* `Sensor::SetType` / `Sensor::TypeStr` (Sensor.cc).

Machine scalars are modelled with `ℚ` (or `ℝ` where a closed-form rotation is
needed); C++ exceptions are modelled with `Except`; an out-of-bounds
`std::vector` access (undefined behavior) is modelled by an `Option` access
that yields `none`.
-/

/-! ## Pose / quaternion value library

The converter uses `sdf::Pose` (a position vector and a rotation quaternion)
as an opaque value library.  The operations below are the standard ones the
library provides: Hamilton quaternion product and rotation of a vector by a
(unit) quaternion `v + 2w (q⃗ × v) + 2 (q⃗ × (q⃗ × v))`.
-/

structure Vec3 (α : Type) where
  x : α
  y : α
  z : α
  deriving DecidableEq, Repr

structure Quat (α : Type) where
  w : α
  x : α
  y : α
  z : α
  deriving DecidableEq, Repr

/-- `sdf::Pose`: a position and a rotation quaternion. -/
structure Pose (α : Type) where
  pos : Vec3 α
  rot : Quat α
  deriving DecidableEq, Repr

def vecAdd {α : Type} [CommRing α] (a b : Vec3 α) : Vec3 α :=
  ⟨a.x + b.x, a.y + b.y, a.z + b.z⟩

def vecCross {α : Type} [CommRing α] (a b : Vec3 α) : Vec3 α :=
  ⟨a.y * b.z - a.z * b.y, a.z * b.x - a.x * b.z, a.x * b.y - a.y * b.x⟩

/-- Rotation of a vector by a quaternion (`sdf::Quaternion::operator*(Vector3)`):
`v + (2 w)(u × v) + 2 (u × (u × v))` where `u` is the vector part. -/
def quatRotateVec {α : Type} [CommRing α] (q : Quat α) (v : Vec3 α) : Vec3 α :=
  let u : Vec3 α := ⟨q.x, q.y, q.z⟩
  let uv := vecCross u v
  let uuv := vecCross u uv
  ⟨v.x + 2 * q.w * uv.x + 2 * uuv.x,
   v.y + 2 * q.w * uv.y + 2 * uuv.y,
   v.z + 2 * q.w * uv.z + 2 * uuv.z⟩

/-- Hamilton product (`sdf::Quaternion::operator*(Quaternion)`). -/
def quatMul {α : Type} [CommRing α] (a b : Quat α) : Quat α :=
  ⟨a.w * b.w - a.x * b.x - a.y * b.y - a.z * b.z,
   a.w * b.x + a.x * b.w + a.y * b.z - a.z * b.y,
   a.w * b.y - a.x * b.z + a.y * b.w + a.z * b.x,
   a.w * b.z + a.x * b.y - a.y * b.x + a.z * b.w⟩

/-- The identity quaternion (no rotation). -/
def quatIdent {α : Type} [CommRing α] : Quat α := ⟨1, 0, 0, 0⟩

/-- `TransformToParentFrame(sdf::Pose _transformInLinkFrame, sdf::Pose
_parentToLinkTransform)` from the URDF converter: first rotate the link pose
into the parent-link frame (both the position and the orientation), then
translate by the parent-to-joint position.  The three assignments mirror the
source statements in order. -/
def TransformToParentFrame {α : Type} [CommRing α]
    (transformInLinkFrame parentToLinkTransform : Pose α) : Pose α :=
  let pos1 := quatRotateVec parentToLinkTransform.rot transformInLinkFrame.pos
  let rot1 := quatMul parentToLinkTransform.rot transformInLinkFrame.rot
  let pos2 := vecAdd parentToLinkTransform.pos pos1
  ⟨pos2, rot1⟩

/-- The quaternion of the rotation by 90 degrees about the Z axis,
`(cos 45°, 0, 0, sin 45°)`. -/
noncomputable def rot90AboutZ : Quat ℝ :=
  ⟨Real.cos (Real.pi / 4), 0, 0, Real.sin (Real.pi / 4)⟩

/-- C2: `TransformToParentFrame(P, T)` returns the pose whose position is
`R * P.pos + t` (rotation applied before translation) and whose orientation is
`R * P.rot`, where `R`/`t` are the rotation/translation of `T`; in particular
with `R` the 90-degree rotation about Z, `t = (1,0,0)` and
`P.pos = (1,0,0)`, the resulting position is `(1,1,0)`. -/
theorem transform_to_parent_frame_composition :
    (∀ P T : Pose ℝ,
      (TransformToParentFrame P T).pos = vecAdd (quatRotateVec T.rot P.pos) T.pos ∧
      (TransformToParentFrame P T).rot = quatMul T.rot P.rot) ∧
    (TransformToParentFrame ⟨⟨1, 0, 0⟩, quatIdent⟩ ⟨⟨1, 0, 0⟩, rot90AboutZ⟩).pos
      = ⟨1, 1, 0⟩ := by
  constructor
  · intro P T
    refine ⟨?_, rfl⟩
    simp only [TransformToParentFrame, vecAdd, Vec3.mk.injEq]
    refine ⟨by ring, by ring, by ring⟩
  · have hs : Real.sqrt 2 * Real.sqrt 2 = 2 := Real.mul_self_sqrt (by norm_num)
    simp only [TransformToParentFrame, quatRotateVec, vecCross, vecAdd, rot90AboutZ,
      quatIdent, Real.cos_pi_div_four, Real.sin_pi_div_four, Vec3.mk.injEq]
    refine ⟨?_, ?_, ?_⟩ <;> nlinarith [hs]

/-! ## The Element tree and `Element::Get` key resolution (SDF.hh)

The template body of `Element::Get<T>` is in `SDF.hh` itself.  The helper
accessors it calls (`GetAttribute`, `HasElement`, `GetElementImpl`,
`HasElementDescription`, `GetElementDescription`, `Param::Get`) are declared
there but implemented in a translation unit that is not part of this tree;
they are modelled from the specification, as noted on each definition.

Typed values are modelled by a decoder `dec : String → Option α` applied to a
`Param`'s current text, together with the default-constructed value `d0`
(`T()`); a decode failure leaves the result at `T()`, exactly as
`Param::Get(result)` leaves `result` untouched when it fails.
-/

/-- A named value cell: `key` and `currentValueAsText`. -/
structure Param where
  key : String
  text : String
  deriving DecidableEq, Repr

/-- An `sdf::Element` node: name, attributes, optional value `Param`, instance
children, and registered element descriptions (the schema templates). -/
inductive Element where
  | mk (name : String) (attributes : List Param) (value : Option Param)
       (elements : List Element) (elementDescriptions : List Element)

def Element.name : Element → String
  | .mk n _ _ _ _ => n

def Element.attributes : Element → List Param
  | .mk _ a _ _ _ => a

def Element.value : Element → Option Param
  | .mk _ _ v _ _ => v

def Element.elements : Element → List Element
  | .mk _ _ _ es _ => es

def Element.elementDescriptions : Element → List Element
  | .mk _ _ _ _ ds => ds

/-- Modelled from the spec: `Param::Get<T>` "decodes `currentValueAsText` into
the declared type"; on decode failure the out-parameter keeps its initial
default-constructed value. -/
def Param.Get {α : Type} (dec : String → Option α) (d0 : α) (p : Param) : α :=
  (dec p.text).getD d0

/-- Modelled from the spec: `GetAttribute(key)` is a "linear lookup by key;
null if absent". -/
def Element.GetAttribute (e : Element) (k : String) : Option Param :=
  e.attributes.find? (fun p => p.key == k)

/-- Modelled from the spec: `GetElement`/`GetElementImpl` "returns first
matching instance child". -/
def Element.GetElementImpl (e : Element) (k : String) : Option Element :=
  e.elements.find? (fun c => c.name == k)

/-- Modelled from the spec: `HasElement(name)` is "true if at least one
instance child with that name exists". -/
def Element.HasElement (e : Element) (k : String) : Bool :=
  (e.GetElementImpl k).isSome

/-- Modelled from the spec: `GetElementDescription(key)` lookup is
"deterministic by first match on name among registered descriptions". -/
def Element.GetElementDescription (e : Element) (k : String) : Option Element :=
  e.elementDescriptions.find? (fun d => d.name == k)

/-- Modelled from the spec: true when a description with that name is
registered. -/
def Element.HasElementDescription (e : Element) (k : String) : Bool :=
  (e.GetElementDescription k).isSome

/-- The value `Get<T>()` with an empty key returns: decode the element's own
value `Param` when there is one, else the default-constructed `T()`.  (This is
the empty-key branch of `Element::Get`, used for the nested
`GetElementImpl(_key)->Get<T>()` and `GetElementDescription(_key)->Get<T>()`
calls, which pass the default empty key.) -/
def Element.GetOwnValue {α : Type} (dec : String → Option α) (d0 : α) (e : Element) : α :=
  match e.value with
  | some p => p.Get dec d0
  | none => d0

/-- `Element::Get<T>(key)` from SDF.hh, following the source control flow.
The returned `Bool` records whether the `sdferr` "Unable to find value for
key" diagnostic was emitted. -/
def Element.Get {α : Type} (dec : String → Option α) (d0 : α) (e : Element)
    (key : String) : α × Bool :=
  if key = "" then
    (e.GetOwnValue dec d0, false)
  else
    match e.GetAttribute key with
    | some param => (param.Get dec d0, false)
    | none =>
      if e.HasElement key then
        (((e.GetElementImpl key).getD e).GetOwnValue dec d0, false)
      else if e.HasElementDescription key then
        (((e.GetElementDescription key).getD e).GetOwnValue dec d0, false)
      else
        (d0, true)

/-- The three-tier resolution order exactly as the specification words it:
attribute named `key` first, else the first existing child element named
`key` (that child's own value), else the registered element description named
`key` (the schema default), else an error and `T()`; an empty key decodes the
element's own value. This is the spec-side definition compared against
`Element.Get`; lookups are phrased by filtering. -/
def Element.getSpecOrder {α : Type} (dec : String → Option α) (d0 : α) (e : Element)
    (key : String) : α × Bool :=
  if key = "" then
    (e.GetOwnValue dec d0, false)
  else
    match (e.attributes.filter (fun p => p.key == key)).head? with
    | some param => (param.Get dec d0, false)
    | none =>
      match (e.elements.filter (fun c => c.name == key)).head? with
      | some child => (child.GetOwnValue dec d0, false)
      | none =>
        match (e.elementDescriptions.filter (fun d => d.name == key)).head? with
        | some descr => (descr.GetOwnValue dec d0, false)
        | none => (d0, true)

/-- Fixture: an element with attribute `x = "1"`, a child `x` whose value is
`"2"`, and a description `x` whose value is `"3"`. -/
def elemAttrChildDescr : Element :=
  .mk "e" [⟨"x", "1"⟩] none
    [.mk "x" [] (some ⟨"", "2"⟩) [] []]
    [.mk "x" [] (some ⟨"", "3"⟩) [] []]

/-- Fixture: same element without the attribute. -/
def elemChildDescr : Element :=
  .mk "e" [] none
    [.mk "x" [] (some ⟨"", "2"⟩) [] []]
    [.mk "x" [] (some ⟨"", "3"⟩) [] []]

/-- Fixture: same element with only the description. -/
def elemDescrOnly : Element :=
  .mk "e" [] none [] [.mk "x" [] (some ⟨"", "3"⟩) [] []]

/-- Fixture: an element that knows nothing about `x`. -/
def elemNothing : Element :=
  .mk "e" [] none [] []

/-- A concrete decoder for the fixtures: decimal text to `Nat`. -/
def decNat (s : String) : Option Nat :=
  if s.data ≠ [] ∧ s.data.all Char.isDigit then
    some (s.data.foldl (fun n c => n * 10 + (c.toNat - 48)) 0)
  else none

theorem find_eq_head_filter {α : Type} (p : α → Bool) (l : List α) :
    l.find? p = (l.filter p).head? := by
  induction l with
  | nil => rfl
  | cons a t ih =>
    by_cases h : p a = true
    · rw [List.find?_cons_of_pos _ h, List.filter_cons_of_pos h]
      rfl
    · rw [List.find?_cons_of_neg _ (by simpa using h),
        List.filter_cons_of_neg (by simpa using h), ih]

/-- C1: `Element::Get<T>(key)` resolves exactly in the specified order
(attribute, then existing child element, then registered description, then
error with `T()`; empty key decodes the element's own value), and the
resolution is as the fixtures show: the attribute shadows the child, the
child shadows the description, and an unknown key yields the default together
with the error diagnostic. -/
theorem element_get_three_tier :
    (∀ (α : Type) (dec : String → Option α) (d0 : α) (e : Element) (key : String),
      e.Get dec d0 key = e.getSpecOrder dec d0 key) ∧
    elemAttrChildDescr.Get decNat 0 "x" = (1, false) ∧
    elemChildDescr.Get decNat 0 "x" = (2, false) ∧
    elemDescrOnly.Get decNat 0 "x" = (3, false) ∧
    elemNothing.Get decNat 0 "x" = (0, true) := by
  refine ⟨?_, by decide, by decide, by decide, by decide⟩
  intro α dec d0 e key
  unfold Element.Get Element.getSpecOrder Element.GetAttribute Element.HasElement
    Element.GetElementImpl Element.HasElementDescription Element.GetElementDescription
  by_cases hk : key = ""
  · simp [hk]
  · simp only [if_neg hk]
    rw [← find_eq_head_filter, ← find_eq_head_filter, ← find_eq_head_filter]
    cases e.attributes.find? (fun p => p.key == key) with
    | some param => rfl
    | none =>
      cases hc : e.elements.find? (fun c => c.name == key) with
      | some child => simp [hc]
      | none =>
        simp only [hc]
        cases hd : e.elementDescriptions.find? (fun d => d.name == key) with
        | some descr => simp [hd]
        | none => simp [hd]

/-! ## `Sensor::SetType` / `Sensor::TypeStr` (Sensor.cc)

The stored sensor type is the numeric value of the `SensorType` enumerator,
which `SetType(string)` assigns from the index into `sensorTypeStrs` by
`static_cast<SensorType>(i)`; it is modelled as that index (`Nat`).
-/

/-- The sensor type strings table from Sensor.cc. -/
def sensorTypeStrs : List String :=
  ["none", "altimeter", "camera", "contact", "depth_camera", "force_torque",
   "gps", "gpu_lidar", "imu", "logical_camera", "magnetometer", "multicamera",
   "lidar", "rfid", "rfidtag", "sonar", "wireless_receiver",
   "wireless_transmitter", "air_pressure"]

/-- `Sensor::SetType(const std::string &)`: scan `sensorTypeStrs` for the
first index whose entry equals the argument; on a hit store that index as the
type and return `true`, otherwise leave the stored type and return `false`.
Returns the (new) stored type and the boolean result. -/
def Sensor.SetType (currentType : Nat) (typeStr : String) : Nat × Bool :=
  match sensorTypeStrs.findIdx? (fun s => s == typeStr) with
  | some i => (i, true)
  | none => (currentType, false)

/-- `Sensor::TypeStr()`: return `sensorTypeStrs[index]` when
`index > 0 && index < sensorTypeStrs.size()`, else `"none"`. -/
def Sensor.TypeStr (storedType : Nat) : String :=
  if 0 < storedType ∧ storedType < sensorTypeStrs.length then
    (sensorTypeStrs.get? storedType).getD "none"
  else "none"

/-- C10: every string in `sensorTypeStrs` (including `"none"`) is accepted by
`Sensor::SetType` with result `true` and then read back verbatim by
`Sensor::TypeStr`; every other string is rejected with result `false` and the
stored type is left unchanged. -/
theorem sensor_set_type_round_trip :
    ∀ (s : String) (cur : Nat),
      (s ∈ sensorTypeStrs →
        (Sensor.SetType cur s).2 = true ∧
        Sensor.TypeStr (Sensor.SetType cur s).1 = s) ∧
      (s ∉ sensorTypeStrs → Sensor.SetType cur s = (cur, false)) := by
  intro s cur
  constructor
  · intro hmem
    fin_cases hmem <;> exact ⟨rfl, rfl⟩
  · intro hmem
    have hnone : sensorTypeStrs.findIdx? (fun t => t == s) = none := by
      rw [List.findIdx?_eq_none_iff]
      intro x hx
      simp only [beq_eq_false_iff_ne, ne_eq]
      exact fun hxs => hmem (hxs ▸ hx)
    unfold Sensor.SetType
    rw [hnone]

/-- Witness for C10 at the concrete inputs `"none"` (a recognized type, the
first entry) and `"bogus"` (not recognized), with stored type `5`. -/
theorem sensor_set_type_round_trip_witness :
    ("none" ∈ sensorTypeStrs ∧
      (Sensor.SetType 5 "none").2 = true ∧
      Sensor.TypeStr (Sensor.SetType 5 "none").1 = "none") ∧
    ("bogus" ∉ sensorTypeStrs ∧ Sensor.SetType 5 "bogus" = (5, false)) :=
  ⟨⟨by decide, (sensor_set_type_round_trip "none" 5).1 (by decide)⟩,
   ⟨by decide, (sensor_set_type_round_trip "bogus" 5).2 (by decide)⟩⟩

/-! ## The URDF link/joint graph, `ReduceFixedJoints` and `CreateSDF`

`urdf::Link` is modelled by the data these two traversals inspect: the link
name, the inertial block (`none` when absent, else its mass), and the child
links, each paired with the type of the joint connecting it to this link
(`child_joints` is parallel to `child_links`).  The parent link's name and the
parent joint's type are supplied to the traversal the way the pointers
`getParent()` / `parent_joint` supply them (both are `none` exactly for the
root).

`ReduceFixedJoints` is modelled by its trace: the list of lump events, one
event per link on which the body of the reduction branch runs (that body
applies `ReduceSDFExtensionToParent`, `ReduceInertialToParent`,
`ReduceVisualsToParent`, `ReduceCollisionsToParent` and
`ReduceJointsToParent` to the link).  The mutations those helpers perform do
not change any link name or joint type and re-home only non-fixed child
joints, which never satisfy the reduction guard, so the trace over the static
tree is the trace of the imperative traversal.

`CreateSDF` is modelled by the pair (emitted link names, number of `sdfwarn`
messages logged).
-/

/-- `urdf::Joint` types. -/
inductive JointType where
  | REVOLUTE
  | CONTINUOUS
  | PRISMATIC
  | FLOATING
  | PLANAR
  | FIXED
  | UNKNOWN
  deriving DecidableEq, Repr

/-- A URDF link: name, inertial (mass, `none` when the block is absent), and
children each with the connecting joint's type. -/
inductive RLink where
  | mk (name : String) (inertialMass : Option ℚ)
       (children : List (JointType × RLink))

def RLink.name : RLink → String
  | .mk n _ _ => n

def RLink.inertialMass : RLink → Option ℚ
  | .mk _ m _ => m

def RLink.children : RLink → List (JointType × RLink)
  | .mk _ _ cs => cs

/-- One lump event: the named link is reduced into its parent (the five
`Reduce*ToParent` helpers are applied to it). -/
structure LumpEvent where
  linkName : String
  parentName : String
  jointType : JointType
  deriving DecidableEq, Repr

mutual

/-- The `ReduceFixedJoints(TiXmlElement*, UrdfLinkPtr)` traversal: first
recurse into children attached by FIXED joints, then reduce this link into
its parent when the parent exists, is not named `"world"`, and the parent
joint exists and is FIXED, then recurse into the remaining children.
`parentInfo` carries `(getParent()->name, parent_joint->type)` (`none` for the
root, which has neither). -/
def ReduceFixedJoints (parentInfo : Option (String × JointType)) :
    RLink → List LumpEvent
  | .mk n _ cs =>
    reduceFixedChildList n cs ++
    (match parentInfo with
     | some (pn, jt) =>
       if pn ≠ "world" ∧ jt = JointType.FIXED then
         [⟨n, pn, jt⟩]
       else []
     | none => []) ++
    reduceNonFixedChildList n cs

/-- First loop of `ReduceFixedJoints`: recurse into the children whose parent
joint is FIXED. -/
def reduceFixedChildList (n : String) :
    List (JointType × RLink) → List LumpEvent
  | [] => []
  | (jt, c) :: rest =>
    (if jt = JointType.FIXED then ReduceFixedJoints (some (n, jt)) c else []) ++
    reduceFixedChildList n rest

/-- Last loop of `ReduceFixedJoints`: recurse into the children whose parent
joint is not FIXED. -/
def reduceNonFixedChildList (n : String) :
    List (JointType × RLink) → List LumpEvent
  | [] => []
  | (jt, c) :: rest =>
    (if jt ≠ JointType.FIXED then ReduceFixedJoints (some (n, jt)) c else []) ++
    reduceNonFixedChildList n rest

end

mutual

theorem lumpEventsSoundLink (pinfo : Option (String × JointType)) (link : RLink)
    (ev : LumpEvent) (h : ev ∈ ReduceFixedJoints pinfo link) :
    ev.parentName ≠ "world" ∧ ev.jointType = JointType.FIXED := by
  match link with
  | .mk n m cs =>
    simp only [ReduceFixedJoints] at h
    rcases List.mem_append.1 h with h12 | h3
    · rcases List.mem_append.1 h12 with h1 | h2
      · exact lumpEventsSoundFixed n cs ev h1
      · cases pinfo with
        | none => simp at h2
        | some pj =>
          obtain ⟨pn, jt⟩ := pj
          have h2' : ev ∈ (if pn ≠ "world" ∧ jt = JointType.FIXED then
              [(⟨n, pn, jt⟩ : LumpEvent)] else []) := h2
          by_cases hc : pn ≠ "world" ∧ jt = JointType.FIXED
          · rw [if_pos hc] at h2'
            have hev : ev = ⟨n, pn, jt⟩ := by simpa using h2'
            subst hev
            exact hc
          · rw [if_neg hc] at h2'
            simp at h2'
    · exact lumpEventsSoundNonFixed n cs ev h3

theorem lumpEventsSoundFixed (n : String) (cs : List (JointType × RLink))
    (ev : LumpEvent) (h : ev ∈ reduceFixedChildList n cs) :
    ev.parentName ≠ "world" ∧ ev.jointType = JointType.FIXED := by
  match cs with
  | [] => simp [reduceFixedChildList] at h
  | (jt, c) :: rest =>
    simp only [reduceFixedChildList] at h
    rcases List.mem_append.1 h with h1 | h2
    · by_cases hj : jt = JointType.FIXED
      · rw [if_pos hj] at h1
        exact lumpEventsSoundLink (some (n, jt)) c ev h1
      · rw [if_neg hj] at h1
        simp at h1
    · exact lumpEventsSoundFixed n rest ev h2

theorem lumpEventsSoundNonFixed (n : String) (cs : List (JointType × RLink))
    (ev : LumpEvent) (h : ev ∈ reduceNonFixedChildList n cs) :
    ev.parentName ≠ "world" ∧ ev.jointType = JointType.FIXED := by
  match cs with
  | [] => simp [reduceNonFixedChildList] at h
  | (jt, c) :: rest =>
    simp only [reduceNonFixedChildList] at h
    rcases List.mem_append.1 h with h1 | h2
    · by_cases hj : jt ≠ JointType.FIXED
      · rw [if_pos hj] at h1
        exact lumpEventsSoundLink (some (n, jt)) c ev h1
      · rw [if_neg hj] at h1
        simp at h1
    · exact lumpEventsSoundNonFixed n rest ev h2

end

/-- C4: `ReduceFixedJoints` never lumps a link whose parent link is named
`"world"`: every lump event (application of `ReduceSDFExtensionToParent`,
`ReduceInertialToParent`, `ReduceVisualsToParent`,
`ReduceCollisionsToParent`, `ReduceJointsToParent` to a link) has a parent
other than `"world"` — and, moreover, a FIXED parent joint. -/
theorem reduce_fixed_joints_world_excluded
    (parentInfo : Option (String × JointType)) (link : RLink) (ev : LumpEvent)
    (h : ev ∈ ReduceFixedJoints parentInfo link) :
    ev.parentName ≠ "world" ∧ ev.jointType = JointType.FIXED :=
  lumpEventsSoundLink parentInfo link ev h

/-- Fixture for C4/C6: `world → base (FIXED) → link1 (REVOLUTE) → link2
(FIXED)`. -/
def exWorldTree : RLink :=
  .mk "world" none
    [(JointType.FIXED,
      .mk "base" (some 1)
        [(JointType.REVOLUTE,
          .mk "link1" (some 1)
            [(JointType.FIXED, .mk "link2" (some 1) [])])])]

/-- Witness for C4: on the fixture tree the traversal produces exactly one
lump event (`link2` into `link1`; `base` is not lumped because its parent is
`"world"`), and the theorem applies to it. -/
theorem reduce_fixed_joints_world_excluded_witness :
    (ReduceFixedJoints none exWorldTree
        = [⟨"link2", "link1", JointType.FIXED⟩] ∧
      (⟨"link2", "link1", JointType.FIXED⟩ : LumpEvent)
        ∈ ReduceFixedJoints none exWorldTree) ∧
    ((⟨"link2", "link1", JointType.FIXED⟩ : LumpEvent).parentName ≠ "world" ∧
      (⟨"link2", "link1", JointType.FIXED⟩ : LumpEvent).jointType
        = JointType.FIXED) :=
  ⟨⟨by decide, by decide⟩,
    reduce_fixed_joints_world_excluded none exWorldTree
      ⟨"link2", "link1", JointType.FIXED⟩ (by decide)⟩

mutual

/-- `CreateSDF(TiXmlElement*, ConstUrdfLinkPtr, const sdf::Pose&)`: a link
other than `"world"` that has no `<inertial>` block or whose mass equals zero
is dropped — the function warns (once per applicable condition: non-empty
children links, non-empty children joints, an existing parent joint, plus the
unconditional "not modeled in sdf" warning) and returns without emitting a
link and without recursing into the children.  Otherwise the link is emitted
via `CreateLink` unless it is a fixed-joint child being reduced away, and the
traversal continues into all children.  Result: (emitted link names, number
of `sdfwarn` messages). -/
def CreateSDF (gReduceFixedJoints : Bool) (parentName : Option String)
    (parentJoint : Option JointType) : RLink → List String × Nat
  | .mk n m cs =>
    if n ≠ "world" ∧ (m = none ∨ m = some 0) then
      ([],
        (if cs.isEmpty then 0 else 1) +
        (if cs.isEmpty then 0 else 1) +
        (if parentJoint.isSome then 1 else 0) +
        1)
    else
      let emitted :=
        if (parentName = some "world") ∨ gReduceFixedJoints = false ∨
            (parentJoint = none ∨ parentJoint ≠ some JointType.FIXED) then
          [n]
        else []
      let rest := createSDFChildList gReduceFixedJoints n cs
      (emitted ++ rest.1, rest.2)

/-- The child recursion loop of `CreateSDF`. -/
def createSDFChildList (gReduceFixedJoints : Bool) (n : String) :
    List (JointType × RLink) → List String × Nat
  | [] => ([], 0)
  | (jt, c) :: rest =>
    let r1 := CreateSDF gReduceFixedJoints (some n) (some jt) c
    let r2 := createSDFChildList gReduceFixedJoints n rest
    (r1.1 ++ r2.1, r1.2 + r2.2)

end

/-- Fixture for C6: a link with no inertial block and two children that each
have valid inertia. -/
def exDroppedLink : RLink :=
  .mk "base" none
    [(JointType.REVOLUTE, .mk "childA" (some 1) []),
     (JointType.REVOLUTE, .mk "childB" (some 1) [])]

/-- Counterexample for C6 as stated: on a root link with no inertial block
and two children, `CreateSDF` emits nothing (the whole subtree is pruned) but
logs three warnings for the dropped link — "children links ignored",
"children joints ignored" and "not modeled in sdf" — not exactly one. -/
theorem create_sdf_drop_warning_counterexample :
    CreateSDF true none none exDroppedLink = ([], 3) ∧ (3 : Nat) ≠ 1 :=
  ⟨by decide, by decide⟩

/-- C6 (amended): a link not named `"world"` with no inertial block or zero
mass is dropped by `CreateSDF`: no link element is emitted for it, the
children are not recursed into (the entire subtree is excluded and
contributes no warnings), and the warnings logged are those of the top
dropped link alone — one per non-empty children-links list, one per
non-empty children-joints list, one per existing parent joint, plus the
final unconditional one (so between one and four, not always exactly one). -/
theorem create_sdf_dropped_subtree_pruned
    (gReduce : Bool) (parentName : Option String)
    (parentJoint : Option JointType) (n : String) (m : Option ℚ)
    (cs : List (JointType × RLink))
    (hn : n ≠ "world") (hm : m = none ∨ m = some 0) :
    CreateSDF gReduce parentName parentJoint (.mk n m cs) =
      ([],
        (if cs.isEmpty then 0 else 1) +
        (if cs.isEmpty then 0 else 1) +
        (if parentJoint.isSome then 1 else 0) +
        1) := by
  unfold CreateSDF
  rw [if_pos ⟨hn, hm⟩]

/-- Witness for C6 (amended) at the fixture: root link (`parentJoint = none`)
named `"base"` with absent inertial and two children. -/
theorem create_sdf_dropped_subtree_pruned_witness :
    ("base" ≠ "world" ∧ ((none : Option ℚ) = none ∨ (none : Option ℚ) = some 0)) ∧
    CreateSDF true none none exDroppedLink =
      ([],
        (if exDroppedLink.children.isEmpty then 0 else 1) +
        (if exDroppedLink.children.isEmpty then 0 else 1) +
        (if (none : Option JointType).isSome then 1 else 0) +
        1) :=
  ⟨⟨by decide, Or.inl rfl⟩,
   create_sdf_dropped_subtree_pruned true none none "base" none
     exDroppedLink.children (by decide) (Or.inl rfl)⟩

/-! ## Visual/collision group lumping

`urdf::Link::visual_groups` / `collision_groups` map a group name to a vector
of shared pointers to visuals/collisions; the maps are modelled as
association lists from group name to the list of pointer values (opaque
identifiers), and the pointed-to poses as a heap `Nat → Pose ℚ`.  A
`std::vector<shared_ptr>` `find` compares the stored pointer values, so
membership of the identifier models the duplicate check exactly.
-/

/-- `std::map::find`-style lookup in an association list. -/
def alFind {β : Type} (t : List (String × β)) (k : String) : Option β :=
  (t.find? (fun kv => kv.1 == k)).map (fun kv => kv.2)

/-- Replace the value stored under key `k` (no-op when the key is absent). -/
def alSet {β : Type} (t : List (String × β)) (k : String) (v : β) :
    List (String × β) :=
  t.map (fun kv => if kv.1 == k then (k, v) else kv)

theorem alFind_nil {β : Type} (k' : String) : alFind ([] : List (String × β)) k' = none :=
  rfl

theorem alFind_cons {β : Type} (k0 : String) (v0 : β) (rest : List (String × β))
    (k' : String) :
    alFind ((k0, v0) :: rest) k' = if k0 = k' then some v0 else alFind rest k' := by
  by_cases h : k0 = k'
  · rw [alFind, List.find?_cons_of_pos _ (by simpa using h), if_pos h]
    rfl
  · rw [alFind, List.find?_cons_of_neg _ (by simpa using h), if_neg h]
    rfl

theorem alSet_cons {β : Type} (k0 : String) (v0 : β) (rest : List (String × β))
    (k : String) (v : β) :
    alSet ((k0, v0) :: rest) k v =
      (if k0 = k then (k, v) else (k0, v0)) :: alSet rest k v := by
  simp only [alSet, List.map_cons, beq_iff_eq]

theorem alFind_alSet {β : Type} (t : List (String × β)) (k k' : String) (v : β) :
    alFind (alSet t k v) k' =
      if k' = k then (alFind t k).map (fun _ => v) else alFind t k' := by
  induction t with
  | nil => by_cases h : k' = k <;> simp [alFind, alSet, h]
  | cons kv rest ih =>
    obtain ⟨k0, v0⟩ := kv
    rw [alSet_cons]
    rw [alFind_cons k0 v0 rest k, alFind_cons k0 v0 rest k']
    by_cases h0 : k0 = k
    · rw [if_pos h0, if_pos h0, alFind_cons k v (alSet rest k v) k']
      by_cases h1 : k = k'
      · rw [if_pos h1, if_pos h1.symm]
        rfl
      · rw [if_neg h1, ih]
        by_cases h2 : k' = k
        · exact absurd h2.symm h1
        · rw [if_neg h2, if_neg h2, if_neg (fun h => h1 (h0 ▸ h))]
    · rw [if_neg h0, if_neg h0, alFind_cons k0 v0 (alSet rest k v) k']
      by_cases h1 : k0 = k'
      · rw [if_pos h1, if_pos h1]
        have h2 : ¬ k' = k := fun hkk => h0 (h1.trans hkk)
        rw [if_neg h2]
      · rw [if_neg h1, if_neg h1, ih]

theorem alFind_append_one {β : Type} (t : List (String × β)) (k k' : String)
    (v : β) :
    alFind (t ++ [(k, v)]) k' =
      (alFind t k').or (if k = k' then some v else none) := by
  induction t with
  | nil =>
    rw [List.nil_append, alFind_nil, Option.none_or, alFind_cons, alFind_nil]
  | cons kv rest ih =>
    obtain ⟨k0, v0⟩ := kv
    rw [List.cons_append, alFind_cons k0 v0 (rest ++ [(k, v)]) k',
      alFind_cons k0 v0 rest k']
    by_cases h : k0 = k'
    · rw [if_pos h, if_pos h]
      rfl
    · rw [if_neg h, if_neg h, ih]

/-- The grouping-relevant part of `urdf::Link`: name and the two group maps
(group name to the list of stored pointer values). -/
structure LinkG where
  name : String
  visualGroups : List (String × List Nat)
  collisionGroups : List (String × List Nat)
  deriving DecidableEq, Repr

/-- The shared body of `ReduceCollisionToParent` and `ReduceVisualToParent`:
look the group up (`getCollisions`/`getVisuals`); if no group of that name
exists, create an empty one and insert it into the map (the subsequent
`std::find` over the fresh empty vector necessarily misses, so the item is
pushed); if the group exists and the item is already in its vector
(`std::find` over the shared-pointer values), warn and do not add it, else
`push_back` it.  Returns the updated map and whether the duplicate warning
fired. -/
def addLumpedItemToGroups (groups : List (String × List Nat))
    (groupName : String) (item : Nat) : List (String × List Nat) × Bool :=
  match alFind groups groupName with
  | some cur =>
    if item ∈ cur then (groups, true)
    else (alSet groups groupName (cur ++ [item]), false)
  | none =>
    let groups1 := groups ++ [(groupName, [])]
    (alSet groups1 groupName ([] ++ [item]), false)

/-- `ReduceCollisionToParent(UrdfLinkPtr, const std::string&,
UrdfCollisionPtr)` from parser_urdf. -/
def ReduceCollisionToParent (link : LinkG) (groupName : String)
    (collision : Nat) : LinkG × Bool :=
  let r := addLumpedItemToGroups link.collisionGroups groupName collision
  ({ link with collisionGroups := r.1 }, r.2)

/-- `ReduceVisualToParent(UrdfLinkPtr, const std::string&, UrdfVisualPtr)`
from parser_urdf. -/
def ReduceVisualToParent (link : LinkG) (groupName : String)
    (visual : Nat) : LinkG × Bool :=
  let r := addLumpedItemToGroups link.visualGroups groupName visual
  ({ link with visualGroups := r.1 }, r.2)

theorem addLumpedItemToGroups_spec (groups : List (String × List Nat))
    (g : String) (c : Nat) (g' : String) :
    (addLumpedItemToGroups groups g c).2
        = decide (c ∈ (alFind groups g).getD []) ∧
    alFind (addLumpedItemToGroups groups g c).1 g' =
      (if g' = g then
        some (if c ∈ (alFind groups g).getD []
              then (alFind groups g).getD []
              else (alFind groups g).getD [] ++ [c])
      else alFind groups g') := by
  cases hf : alFind groups g with
  | some cur =>
    simp only [addLumpedItemToGroups, hf, Option.getD_some]
    by_cases hc : c ∈ cur
    · simp only [if_pos hc]
      refine ⟨by simp [hc], ?_⟩
      by_cases hg : g' = g
      · rw [if_pos hg, hg, hf]
      · rw [if_neg hg]
    · simp only [if_neg hc]
      refine ⟨by simp [hc], ?_⟩
      rw [alFind_alSet, hf]
      by_cases hg : g' = g
      · rw [if_pos hg, if_pos hg]
        rfl
      · rw [if_neg hg, if_neg hg]
  | none =>
    simp only [addLumpedItemToGroups, hf, Option.getD_none]
    have h1 : alFind (groups ++ [(g, [])]) g = some [] := by
      rw [alFind_append_one, hf, Option.none_or, if_pos rfl]
    refine ⟨by simp, ?_⟩
    rw [alFind_alSet]
    by_cases hg : g' = g
    · rw [if_pos hg, if_pos hg, h1, if_neg (List.not_mem_nil c)]
      rfl
    · rw [if_neg hg, if_neg hg, alFind_append_one,
        if_neg (fun h => hg h.symm)]
      cases alFind groups g' <;> rfl

/-- C8: `ReduceCollisionToParent` / `ReduceVisualToParent` warn exactly when
the item (compared by its stored pointer value) is already present in the
target link's group of that name, in which case the group is left unchanged;
otherwise the item is appended to that group, the group being created first
when absent.  All other groups are untouched, and the sibling map and link
name are untouched. -/
theorem reduce_item_to_parent_duplicate_guard (link : LinkG) (g : String)
    (c : Nat) (g' : String) :
    ((ReduceCollisionToParent link g c).2
        = decide (c ∈ (alFind link.collisionGroups g).getD []) ∧
      alFind (ReduceCollisionToParent link g c).1.collisionGroups g' =
        (if g' = g then
          some (if c ∈ (alFind link.collisionGroups g).getD []
                then (alFind link.collisionGroups g).getD []
                else (alFind link.collisionGroups g).getD [] ++ [c])
        else alFind link.collisionGroups g') ∧
      (ReduceCollisionToParent link g c).1.visualGroups = link.visualGroups ∧
      (ReduceCollisionToParent link g c).1.name = link.name) ∧
    ((ReduceVisualToParent link g c).2
        = decide (c ∈ (alFind link.visualGroups g).getD []) ∧
      alFind (ReduceVisualToParent link g c).1.visualGroups g' =
        (if g' = g then
          some (if c ∈ (alFind link.visualGroups g).getD []
                then (alFind link.visualGroups g).getD []
                else (alFind link.visualGroups g).getD [] ++ [c])
        else alFind link.visualGroups g') ∧
      (ReduceVisualToParent link g c).1.collisionGroups
          = link.collisionGroups ∧
      (ReduceVisualToParent link g c).1.name = link.name) :=
  ⟨⟨(addLumpedItemToGroups_spec link.collisionGroups g c g').1,
    (addLumpedItemToGroups_spec link.collisionGroups g c g').2, rfl, rfl⟩,
   ⟨(addLumpedItemToGroups_spec link.visualGroups g c g').1,
    (addLumpedItemToGroups_spec link.visualGroups g c g').2, rfl, rfl⟩⟩

/-- The group-name check `groupName.find("lump::") == 0` from
`ReduceVisualsToParent` / `ReduceCollisionsToParent`: the name starts with
`"lump::"`. -/
def startsWithLump (s : String) : Bool :=
  "lump::".data.isPrefixOf s.data

/-- The lump group name each loop of `ReduceVisualsToParent` /
`ReduceCollisionsToParent` computes: a group already prefixed `"lump::"` is
re-lumped under its own name, every other group under
`"lump::" + linkName`. -/
def lumpGroupName (childLinkName groupName : String) : String :=
  if startsWithLump groupName then groupName else "lump::" ++ childLinkName

theorem startsWithLump_append (c : String) :
    startsWithLump ("lump::" ++ c) = true := by
  simp only [startsWithLump, String.data_append]
  rw [List.isPrefixOf_iff_prefix]
  exact List.prefix_append _ _

/-- The body of the inner loops: re-express the item's origin in the parent
frame through the fixed joint's transform (a store update through the shared
pointer), then `ReduceVisualToParent` into the accumulating parent link. -/
def lumpVisualItem (jointT : Pose ℚ) (gname : String)
    (st : LinkG × (Nat → Pose ℚ)) (v : Nat) : LinkG × (Nat → Pose ℚ) :=
  let heap2 := fun p =>
    if p = v then TransformToParentFrame (st.2 p) jointT else st.2 p
  ((ReduceVisualToParent st.1 gname v).1, heap2)

/-- One iteration of the outer loop of `ReduceVisualsToParent`. -/
def lumpVisualGroup (jointT : Pose ℚ) (childName : String)
    (st : LinkG × (Nat → Pose ℚ)) (grp : String × List Nat) :
    LinkG × (Nat → Pose ℚ) :=
  grp.2.foldl (lumpVisualItem jointT (lumpGroupName childName grp.1)) st

/-- `ReduceVisualsToParent(UrdfLinkPtr)`: lump all of the child link's visual
groups into the parent (`getParent()`), transforming each visual's origin by
the child's `parent_joint->parent_to_joint_origin_transform`. -/
def ReduceVisualsToParent (jointT : Pose ℚ) (child parent : LinkG)
    (heap : Nat → Pose ℚ) : LinkG × (Nat → Pose ℚ) :=
  child.visualGroups.foldl (lumpVisualGroup jointT child.name) (parent, heap)

/-- The body of the inner loops of `ReduceCollisionsToParent`. -/
def lumpCollisionItem (jointT : Pose ℚ) (gname : String)
    (st : LinkG × (Nat → Pose ℚ)) (c : Nat) : LinkG × (Nat → Pose ℚ) :=
  let heap2 := fun p =>
    if p = c then TransformToParentFrame (st.2 p) jointT else st.2 p
  ((ReduceCollisionToParent st.1 gname c).1, heap2)

/-- One iteration of the outer loop of `ReduceCollisionsToParent`. -/
def lumpCollisionGroup (jointT : Pose ℚ) (childName : String)
    (st : LinkG × (Nat → Pose ℚ)) (grp : String × List Nat) :
    LinkG × (Nat → Pose ℚ) :=
  grp.2.foldl (lumpCollisionItem jointT (lumpGroupName childName grp.1)) st

/-- `ReduceCollisionsToParent(UrdfLinkPtr)`: the collision counterpart. -/
def ReduceCollisionsToParent (jointT : Pose ℚ) (child parent : LinkG)
    (heap : Nat → Pose ℚ) : LinkG × (Nat → Pose ℚ) :=
  child.collisionGroups.foldl (lumpCollisionGroup jointT child.name)
    (parent, heap)

theorem lumpVisualItem_other (jointT : Pose ℚ) (gname : String)
    (st : LinkG × (Nat → Pose ℚ)) (v : Nat) (g' : String) (h : g' ≠ gname) :
    alFind (lumpVisualItem jointT gname st v).1.visualGroups g'
      = alFind st.1.visualGroups g' := by
  have hs := (addLumpedItemToGroups_spec st.1.visualGroups gname v g').2
  rw [if_neg h] at hs
  exact hs

theorem lumpVisualItems_other (jointT : Pose ℚ) (gname : String)
    (items : List Nat) (st : LinkG × (Nat → Pose ℚ)) (g' : String)
    (h : g' ≠ gname) :
    alFind ((items.foldl (lumpVisualItem jointT gname) st).1.visualGroups) g'
      = alFind st.1.visualGroups g' := by
  induction items generalizing st with
  | nil => rfl
  | cons v rest ih =>
    rw [List.foldl_cons, ih _, lumpVisualItem_other _ _ _ _ _ h]

theorem visuals_fold_preserved (jointT : Pose ℚ) (childName : String)
    (gs : List (String × List Nat)) (st : LinkG × (Nat → Pose ℚ))
    (g' : String) (h : ∀ e ∈ gs, g' ≠ lumpGroupName childName e.1) :
    alFind ((gs.foldl (lumpVisualGroup jointT childName) st).1.visualGroups) g'
      = alFind st.1.visualGroups g' := by
  induction gs generalizing st with
  | nil => rfl
  | cons e rest ih =>
    rw [List.foldl_cons, ih _ (fun x hx => h x (List.mem_cons_of_mem _ hx))]
    exact lumpVisualItems_other _ _ _ _ _ (h e (List.mem_cons_self _ _))

theorem lumpCollisionItem_other (jointT : Pose ℚ) (gname : String)
    (st : LinkG × (Nat → Pose ℚ)) (c : Nat) (g' : String) (h : g' ≠ gname) :
    alFind (lumpCollisionItem jointT gname st c).1.collisionGroups g'
      = alFind st.1.collisionGroups g' := by
  have hs := (addLumpedItemToGroups_spec st.1.collisionGroups gname c g').2
  rw [if_neg h] at hs
  exact hs

theorem lumpCollisionItems_other (jointT : Pose ℚ) (gname : String)
    (items : List Nat) (st : LinkG × (Nat → Pose ℚ)) (g' : String)
    (h : g' ≠ gname) :
    alFind
      ((items.foldl (lumpCollisionItem jointT gname) st).1.collisionGroups) g'
      = alFind st.1.collisionGroups g' := by
  induction items generalizing st with
  | nil => rfl
  | cons v rest ih =>
    rw [List.foldl_cons, ih _, lumpCollisionItem_other _ _ _ _ _ h]

theorem collisions_fold_preserved (jointT : Pose ℚ) (childName : String)
    (gs : List (String × List Nat)) (st : LinkG × (Nat → Pose ℚ))
    (g' : String) (h : ∀ e ∈ gs, g' ≠ lumpGroupName childName e.1) :
    alFind
      ((gs.foldl (lumpCollisionGroup jointT childName) st).1.collisionGroups)
      g' = alFind st.1.collisionGroups g' := by
  induction gs generalizing st with
  | nil => rfl
  | cons e rest ih =>
    rw [List.foldl_cons, ih _ (fun x hx => h x (List.mem_cons_of_mem _ hx))]
    exact lumpCollisionItems_other _ _ _ _ _ (h e (List.mem_cons_self _ _))

/-- C3: lumping re-adds a group whose name already starts with `"lump::"`
under its unchanged name and every other group under `"lump::" + linkName`;
a second lumping therefore maps every produced group name to itself, so
repeated lumping never stacks prefixes; and the only parent groups
`ReduceVisualsToParent` / `ReduceCollisionsToParent` can touch are the images
of the child's group names under this naming rule. -/
theorem lump_group_naming :
    (∀ childName g : String,
      (startsWithLump g = true → lumpGroupName childName g = g) ∧
      (startsWithLump g = false →
        lumpGroupName childName g = "lump::" ++ childName)) ∧
    (∀ c1 c2 g : String,
      lumpGroupName c2 (lumpGroupName c1 g) = lumpGroupName c1 g) ∧
    (∀ (jointT : Pose ℚ) (child parent : LinkG) (heap : Nat → Pose ℚ)
        (g' : String),
      alFind (ReduceVisualsToParent jointT child parent heap).1.visualGroups g'
          ≠ alFind parent.visualGroups g' →
      ∃ e ∈ child.visualGroups, g' = lumpGroupName child.name e.1) ∧
    (∀ (jointT : Pose ℚ) (child parent : LinkG) (heap : Nat → Pose ℚ)
        (g' : String),
      alFind
          (ReduceCollisionsToParent jointT child parent heap).1.collisionGroups
          g' ≠ alFind parent.collisionGroups g' →
      ∃ e ∈ child.collisionGroups, g' = lumpGroupName child.name e.1) := by
  refine ⟨?_, ?_, ?_, ?_⟩
  · intro childName g
    exact ⟨fun h => by rw [lumpGroupName, if_pos h],
      fun h => by rw [lumpGroupName, if_neg (by rw [h]; exact Bool.false_ne_true)]⟩
  · intro c1 c2 g
    unfold lumpGroupName
    by_cases h : startsWithLump g = true
    · rw [if_pos h, if_pos h]
    · rw [if_neg h, if_pos (startsWithLump_append c1)]
  · intro jointT child parent heap g' hne
    by_contra hnot
    push_neg at hnot
    exact hne (visuals_fold_preserved jointT child.name child.visualGroups
      (parent, heap) g' hnot)
  · intro jointT child parent heap g' hne
    by_contra hnot
    push_neg at hnot
    exact hne (collisions_fold_preserved jointT child.name
      child.collisionGroups (parent, heap) g' hnot)

/-- Fixture for C3: the child link `"wheel"` with a plain group and an
already-lumped group, an empty parent `"chassis"`, an identity joint
transform, and a trivial origin heap. -/
def exChildLink : LinkG :=
  ⟨"wheel", [("default", [7]), ("lump::axle", [8])], [("default", [9])]⟩

def exParentLink : LinkG := ⟨"chassis", [], []⟩

def exIdPose : Pose ℚ := ⟨⟨0, 0, 0⟩, ⟨1, 0, 0, 0⟩⟩

/-- Witness for C3: `"lump::axle"` keeps its name, `"default"` becomes
`"lump::wheel"`, the doubly-application of the naming rule is the identity on
`"lump::wheel"`, and on the fixture the visuals actually land under these two
names (so the touched group `"lump::wheel"` is in the image of the child's
group names). -/
theorem lump_group_naming_witness :
    (startsWithLump "lump::axle" = true ∧
      lumpGroupName "wheel" "lump::axle" = "lump::axle") ∧
    (startsWithLump "default" = false ∧
      lumpGroupName "wheel" "default" = "lump::wheel") ∧
    lumpGroupName "chassis" (lumpGroupName "wheel" "default")
        = lumpGroupName "wheel" "default" ∧
    (alFind (ReduceVisualsToParent exIdPose exChildLink exParentLink
          (fun _ => exIdPose)).1.visualGroups "lump::wheel"
        ≠ alFind exParentLink.visualGroups "lump::wheel" ∧
      ∃ e ∈ exChildLink.visualGroups,
        "lump::wheel" = lumpGroupName exChildLink.name e.1) :=
  ⟨⟨by decide, (lump_group_naming.1 "wheel" "lump::axle").1 (by decide)⟩,
   ⟨by decide, (lump_group_naming.1 "wheel" "default").2 (by decide)⟩,
   lump_group_naming.2.1 "wheel" "chassis" "default",
   ⟨by decide,
    lump_group_naming.2.2.1 exIdPose exChildLink exParentLink
      (fun _ => exIdPose) "lump::wheel" (by decide)⟩⟩

/-! ## The extension side-table and `ReduceSDFExtensionToParent`

`g_extensions` maps a reference name to a vector of `SDFExtension*`; it is
modelled as an association list from name to the list of pointer values
(opaque identifiers) together with a store `Nat → SDFExtension` for the
pointed-to records.  The record carries its `reductionTransform` and its blob
fragments (opaque text).  The TinyXML blob rewrites — the sensor/projector
pose overwrite of `ReduceSDFExtensionsTransform` and the reference-name
string replacement of `ReduceSDFExtensionFrameReplace` — touch only the blob
text, never the `reductionTransform` or the map structure; they are taken as
parameters (`sensorXform`, `projectorXform`, `frameRepl`). -/

/-- An `SDFExtension` record as the reduction pass sees it. -/
structure SDFExtension where
  reductionTransform : Pose ℚ
  blobs : List String
  deriving Repr

/-- The first loop of `ReduceSDFExtensionToParent` over the records found
under the link's name: compose each record's `reductionTransform` with the
fixed joint's transform via `TransformToParentFrame`, then apply the
sensor/projector blob pose overwrite (`ReduceSDFExtensionsTransform`), which
touches only the blob text. -/
def extMoveUpdateStore (sensorXform projectorXform : Pose ℚ → String → String)
    (ids : List Nat) (jointT : Pose ℚ) (store : Nat → SDFExtension) :
    Nat → SDFExtension :=
  fun i =>
    if i ∈ ids then
      let e := store i
      let rt := TransformToParentFrame e.reductionTransform jointT
      { reductionTransform := rt,
        blobs := e.blobs.map (fun b => projectorXform rt (sensorXform rt b)) }
    else store i

/-- The final loop of `ReduceSDFExtensionToParent`: run the reference-name
replacement (`ReduceSDFExtensionFrameReplace`) over every record reachable
from the table; it rewrites only blob text. -/
def extFrameReplacePass (frameRepl : String → String → Pose ℚ → String → String)
    (linkName parentName : String) (tb : List (String × List Nat))
    (st : Nat → SDFExtension) : Nat → SDFExtension :=
  fun i =>
    if tb.any (fun kv => kv.2.contains i) then
      let e := st i
      { e with
        blobs := e.blobs.map (frameRepl linkName parentName e.reductionTransform) }
    else st i

/-- `ReduceSDFExtensionToParent(UrdfLinkPtr)`: when the side-table has an
entry under the link's name, first update each of its records
(`extMoveUpdateStore`), then find (or create) the entry under the parent's
name, `push_back` all the records onto it and `clear()` the old entry;
finally run the frame-name replacement over the whole table. -/
def ReduceSDFExtensionToParent
    (sensorXform projectorXform : Pose ℚ → String → String)
    (frameRepl : String → String → Pose ℚ → String → String)
    (tbl : List (String × List Nat)) (store : Nat → SDFExtension)
    (linkName parentName : String) (jointT : Pose ℚ) :
    List (String × List Nat) × (Nat → SDFExtension) :=
  let step1 :=
    match alFind tbl linkName with
    | some ids =>
      let store1 := extMoveUpdateStore sensorXform projectorXform ids jointT store
      let tbl1 := if (alFind tbl parentName).isSome then tbl
                  else tbl ++ [(parentName, [])]
      let tbl2 :=
        alSet tbl1 parentName (((alFind tbl1 parentName).getD []) ++ ids)
      let tbl3 := alSet tbl2 linkName []
      (tbl3, store1)
    | none => (tbl, store)
  (step1.1, extFrameReplacePass frameRepl linkName parentName step1.1 step1.2)

theorem extFrameReplacePass_rt
    (frameRepl : String → String → Pose ℚ → String → String)
    (linkName parentName : String) (tb : List (String × List Nat))
    (st : Nat → SDFExtension) (i : Nat) :
    (extFrameReplacePass frameRepl linkName parentName tb st i).reductionTransform
      = (st i).reductionTransform := by
  unfold extFrameReplacePass
  by_cases h : tb.any (fun kv => kv.2.contains i) = true
  · rw [if_pos h]
  · rw [if_neg h]

/-- C5: when `ReduceSDFExtensionToParent` runs on a link with an entry in the
side-table, the records are moved, not copied: afterwards the list under the
link's name is empty and the list under the parent's name is exactly its old
records followed by the link's records; and each moved record's
`reductionTransform` has first been composed with the parent joint's fixed
transform through `TransformToParentFrame`. -/
theorem reduce_sdf_extension_to_parent_moves
    (sensorXform projectorXform : Pose ℚ → String → String)
    (frameRepl : String → String → Pose ℚ → String → String)
    (tbl : List (String × List Nat)) (store : Nat → SDFExtension)
    (l p : String) (T : Pose ℚ) (ids : List Nat)
    (hlp : l ≠ p) (hl : alFind tbl l = some ids) :
    alFind (ReduceSDFExtensionToParent sensorXform projectorXform frameRepl
        tbl store l p T).1 l = some [] ∧
    alFind (ReduceSDFExtensionToParent sensorXform projectorXform frameRepl
        tbl store l p T).1 p = some ((alFind tbl p).getD [] ++ ids) ∧
    ∀ i ∈ ids,
      ((ReduceSDFExtensionToParent sensorXform projectorXform frameRepl
          tbl store l p T).2 i).reductionTransform
        = TransformToParentFrame (store i).reductionTransform T := by
  have htbl1p : alFind (if (alFind tbl p).isSome then tbl
      else tbl ++ [(p, [])]) p = some ((alFind tbl p).getD []) := by
    cases hp : alFind tbl p with
    | some v => simpa using hp
    | none =>
      rw [if_neg (by simp), alFind_append_one, hp, Option.none_or, if_pos rfl]
      rfl
  have htbl1l : alFind (if (alFind tbl p).isSome then tbl
      else tbl ++ [(p, [])]) l = some ids := by
    cases hp : alFind tbl p with
    | some v => simpa using hl
    | none =>
      rw [if_neg (by simp), alFind_append_one, hl,
        if_neg (fun h => hlp h.symm)]
      rfl
  refine ⟨?_, ?_, ?_⟩
  · simp only [ReduceSDFExtensionToParent, hl]
    rw [alFind_alSet, if_pos rfl, alFind_alSet, if_neg hlp, htbl1l]
    rfl
  · simp only [ReduceSDFExtensionToParent, hl]
    rw [alFind_alSet, if_neg (fun h => hlp h.symm), alFind_alSet, if_pos rfl,
      htbl1p]
    rfl
  · intro i hi
    simp only [ReduceSDFExtensionToParent, hl]
    rw [extFrameReplacePass_rt]
    unfold extMoveUpdateStore
    rw [if_pos hi]

/-- Fixture for C5: one record (id 0) under `"wheel"`, one (id 1) under
`"chassis"`. -/
def exExtTbl : List (String × List Nat) := [("wheel", [0]), ("chassis", [1])]

def exExtStore : Nat → SDFExtension := fun _ => ⟨exIdPose, ["blob"]⟩

/-- Witness for C5 on the fixture, with identity blob rewrites. -/
theorem reduce_sdf_extension_to_parent_moves_witness :
    ("wheel" ≠ "chassis" ∧ alFind exExtTbl "wheel" = some [0]) ∧
    (alFind (ReduceSDFExtensionToParent (fun _ b => b) (fun _ b => b)
        (fun _ _ _ b => b) exExtTbl exExtStore "wheel" "chassis"
        exIdPose).1 "wheel" = some [] ∧
      alFind (ReduceSDFExtensionToParent (fun _ b => b) (fun _ b => b)
        (fun _ _ _ b => b) exExtTbl exExtStore "wheel" "chassis"
        exIdPose).1 "chassis"
          = some ((alFind exExtTbl "chassis").getD [] ++ [0]) ∧
      ∀ i ∈ [0],
        ((ReduceSDFExtensionToParent (fun _ b => b) (fun _ b => b)
            (fun _ _ _ b => b) exExtTbl exExtStore "wheel" "chassis"
            exIdPose).2 i).reductionTransform
          = TransformToParentFrame (exExtStore i).reductionTransform
              exIdPose) :=
  ⟨⟨by decide, by decide⟩,
   reduce_sdf_extension_to_parent_moves (fun _ b => b) (fun _ b => b)
     (fun _ _ _ b => b) exExtTbl exExtStore "wheel" "chassis" exIdPose [0]
     (by decide) (by decide)⟩

/-! ## `ParseVector3` and the numeric text decoder

`boost::lexical_cast<double>` is external; it is modelled on plain decimal
literals (optional leading minus, digits, optional fractional part), throwing
— `Except.error` — on anything else.  `ParseVector3` is from parser_urdf; its
`vals` vector is built from the scaled parsed tokens and then indexed with
`vals[0]`, `vals[1]`, `vals[3]` — `std::vector::operator[]` is unchecked, so
an out-of-range index is undefined behavior, modelled as a `none` result. -/

/-- Splitting a character list at a separator (keeping empty pieces), the
behavior of `boost::split` with `is_any_of(" ")`. -/
def splitCharsAux (sep : Char) : List Char → List Char → List (List Char)
  | [], acc => [acc.reverse]
  | c :: rest, acc =>
    if c = sep then acc.reverse :: splitCharsAux sep rest []
    else splitCharsAux sep rest (c :: acc)

def splitChars (sep : Char) (l : List Char) : List (List Char) :=
  splitCharsAux sep l []

/-- Decimal digits to `Nat` (`none` unless nonempty and all digits). -/
def decDigits (l : List Char) : Option Nat :=
  if l ≠ [] ∧ l.all Char.isDigit then
    some (l.foldl (fun n c => n * 10 + (c.toNat - 48)) 0)
  else none

/-- Modelled from the external library: `boost::lexical_cast<double>` on a
plain decimal literal (optional leading minus, digits, optional fractional
part); `Except.error` models the thrown `boost::bad_lexical_cast`. -/
def lexicalCastDoubleChars (l : List Char) : Except String ℚ :=
  let signBody : ℚ × List Char :=
    if l.head? = some '-' then (-1, l.tail) else (1, l)
  match splitChars '.' signBody.2 with
  | [ip] =>
    match decDigits ip with
    | some n => .ok (signBody.1 * (n : ℚ))
    | none => .error ("bad lexical cast: " ++ String.mk l)
  | [ip, fp] =>
    match decDigits ip, decDigits fp with
    | some a, some b =>
      .ok (signBody.1 * ((a : ℚ) + (b : ℚ) / (10 : ℚ) ^ fp.length))
    | _, _ => .error ("bad lexical cast: " ++ String.mk l)
  | _ => .error ("bad lexical cast: " ++ String.mk l)

def lexicalCastDouble (s : String) : Except String ℚ :=
  lexicalCastDoubleChars s.data

/-- The token loop of `ParseVector3`: skip empty pieces, push
`scale * lexical_cast<double>(piece)` for the rest, and let the
`bad_lexical_cast` exception out (the caller catches it). -/
def parseVec3Vals (scale : ℚ) : List (List Char) → Except String (List ℚ)
  | [] => .ok []
  | piece :: rest =>
    if piece = [] then parseVec3Vals scale rest
    else
      match lexicalCastDoubleChars piece with
      | .ok v => (parseVec3Vals scale rest).map (fun vs => scale * v :: vs)
      | .error e => .error e

/-- `ParseVector3(TiXmlNode*, double)` from parser_urdf: a null node yields
the zero vector; a failed token decode is caught, logged, and yields the zero
vector; otherwise the function returns
`urdf::Vector3(vals[0], vals[1], vals[3])` — note the index 3 — where an
index past the end of `vals` is undefined behavior (`none` here). -/
def ParseVector3 (nodeText : Option String) (scale : ℚ) : Option (Vec3 ℚ) :=
  match nodeText with
  | some str =>
    match parseVec3Vals scale (splitChars ' ' str.data) with
    | .error _ => some ⟨0, 0, 0⟩
    | .ok vals =>
      match vals.get? 0, vals.get? 1, vals.get? 3 with
      | some v0, some v1, some v3 => some ⟨v0, v1, v3⟩
      | _, _, _ => none
  | none => some ⟨0, 0, 0⟩

attribute [local semireducible] Rat.mul Rat.add Rat.sub Rat.inv in
/-- C9: on a node whose text is exactly three well-formed tokens, e.g.
`"1 2 3"`, `ParseVector3` reads `vals[3]`, one past the end of the three
parsed values — an out-of-bounds access (undefined behavior), not the claimed
in-bounds `(s*v0, s*v1, s*v2)`; with a fourth token present the function
returns the fourth token as the `z` component (`"1 2 3 4"` gives `(1,2,4)`,
scale 2 gives `(2,4,8)`); a malformed token is caught and yields the zero
vector, and a null node yields the zero vector. -/
theorem parse_vector3_out_of_bounds :
    ParseVector3 (some "1 2 3") 1 = none ∧
    ParseVector3 (some "1 2 3 4") 1 = some ⟨1, 2, 4⟩ ∧
    ParseVector3 (some "1 2 3 4") 2 = some ⟨2, 4, 8⟩ ∧
    ParseVector3 (some "1 x 3") 1 = some ⟨0, 0, 0⟩ ∧
    ParseVector3 none 1 = some ⟨0, 0, 0⟩ := by
  refine ⟨by decide, by decide, by decide, by decide, by decide⟩

/-! ## `ParseSDFExtension` and `URDF2SDF::InitModelString`

The conversion entry point.  `urdf::parseURDF` is external: its result is
modelled as `Option RobotModel` (`none` when no robot model can be
constructed from the input string).  The `<sdf>` extension elements that the
TinyXML re-parse of the same string finds are modelled as a list of
(`reference` attribute, child `(tag, value)` pairs).  Note that
`ParseSDFExtension` feeds recognized numeric tags to
`boost::lexical_cast<double>` with no try/catch, while `ParseVector3` catches
the same exception. -/

/-- One `<sdf reference="...">` element as `ParseSDFExtension` iterates it. -/
structure SDFElemX where
  reference : Option String
  childElems : List (String × String)

/-- The fields of `SDFExtension` that `ParseSDFExtension` fills in. -/
structure SDFExtParsed where
  oldLinkName : String
  material : String
  setStaticFlag : Bool
  gravity : Bool
  isDampingFactor : Bool
  dampingFactor : ℚ
  isMaxVel : Bool
  maxVel : ℚ
  isMinDepth : Bool
  minDepth : ℚ
  isMu1 : Bool
  mu1 : ℚ
  isMu2 : Bool
  mu2 : ℚ
  fdir1 : String
  isKp : Bool
  kp : ℚ
  isKd : Bool
  kd : ℚ
  selfCollide : Bool
  isLaserRetro : Bool
  laserRetro : ℚ
  isStopCfm : Bool
  stopCfm : ℚ
  isStopErp : Bool
  stopErp : ℚ
  isInitialJointPosition : Bool
  initialJointPosition : ℚ
  isFudgeFactor : Bool
  fudgeFactor : ℚ
  provideFeedback : Bool
  cfmDamping : Bool
  blobs : List (String × String)
  deriving Repr

/-- Modelled from the spec: the `SDFExtension` constructor defaults — every
is-set flag clear, gravity defaulting to true, numeric fields zero, no
blobs. -/
def initialSDFExt : SDFExtParsed :=
  ⟨"", "", false, true, false, 0, false, 0, false, 0, false, 0, false, 0, "",
   false, 0, false, 0, false, false, 0, false, 0, false, 0, false, 0, false,
   0, false, false, []⟩

/-- `lowerStr` from parser_urdf. -/
def lowerStr (s : String) : String :=
  String.mk (s.data.map Char.toLower)

/-- The truthy test `lowerStr(v) == "true" || lowerStr(v) == "yes" ||
v == "1"` used for `static`, `selfCollide`, `provideFeedback`,
`cfmDamping`. -/
def truthyStr (v : String) : Bool :=
  lowerStr v == "true" || lowerStr v == "yes" || v == "1"

/-- The falsy test used for `gravity` (default true). -/
def falsyStr (v : String) : Bool :=
  lowerStr v == "false" || lowerStr v == "no" || v == "0"

/-- The child-element dispatch of `ParseSDFExtension`: the `else if` chain
over the recognized tags, in source order; unrecognized children are saved as
blobs.  Each recognized numeric tag goes through
`boost::lexical_cast<double>` with no surrounding try/catch, so a malformed
value propagates the exception (`Except.error`). -/
def parseSDFExtElem (sdf : SDFExtParsed) (tag value : String) :
    Except String SDFExtParsed :=
  if tag = "material" then .ok { sdf with material := value }
  else if tag = "static" then .ok { sdf with setStaticFlag := truthyStr value }
  else if tag = "gravity" then .ok { sdf with gravity := !(falsyStr value) }
  else if tag = "dampingFactor" then
    match lexicalCastDouble value with
    | .ok v => .ok { sdf with isDampingFactor := true, dampingFactor := v }
    | .error e => .error e
  else if tag = "maxVel" then
    match lexicalCastDouble value with
    | .ok v => .ok { sdf with isMaxVel := true, maxVel := v }
    | .error e => .error e
  else if tag = "minDepth" then
    match lexicalCastDouble value with
    | .ok v => .ok { sdf with isMinDepth := true, minDepth := v }
    | .error e => .error e
  else if tag = "mu1" then
    match lexicalCastDouble value with
    | .ok v => .ok { sdf with isMu1 := true, mu1 := v }
    | .error e => .error e
  else if tag = "mu2" then
    match lexicalCastDouble value with
    | .ok v => .ok { sdf with isMu2 := true, mu2 := v }
    | .error e => .error e
  else if tag = "fdir1" then .ok { sdf with fdir1 := value }
  else if tag = "kp" then
    match lexicalCastDouble value with
    | .ok v => .ok { sdf with isKp := true, kp := v }
    | .error e => .error e
  else if tag = "kd" then
    match lexicalCastDouble value with
    | .ok v => .ok { sdf with isKd := true, kd := v }
    | .error e => .error e
  else if tag = "selfCollide" then
    .ok { sdf with selfCollide := truthyStr value }
  else if tag = "laserRetro" then
    match lexicalCastDouble value with
    | .ok v => .ok { sdf with isLaserRetro := true, laserRetro := v }
    | .error e => .error e
  else if tag = "stopCfm" then
    match lexicalCastDouble value with
    | .ok v => .ok { sdf with isStopCfm := true, stopCfm := v }
    | .error e => .error e
  else if tag = "stopErp" then
    match lexicalCastDouble value with
    | .ok v => .ok { sdf with isStopErp := true, stopErp := v }
    | .error e => .error e
  else if tag = "initialJointPosition" then
    match lexicalCastDouble value with
    | .ok v =>
      .ok { sdf with isInitialJointPosition := true, initialJointPosition := v }
    | .error e => .error e
  else if tag = "fudgeFactor" then
    match lexicalCastDouble value with
    | .ok v => .ok { sdf with isFudgeFactor := true, fudgeFactor := v }
    | .error e => .error e
  else if tag = "provideFeedback" then
    .ok { sdf with provideFeedback := truthyStr value }
  else if tag = "cfmDamping" then
    .ok { sdf with cfmDamping := truthyStr value }
  else .ok { sdf with blobs := sdf.blobs ++ [(tag, value)] }

/-- The child loop of `ParseSDFExtension` building one record; each
iteration re-assigns `oldLinkName` to the reference string. -/
def parseSDFExtChildren (refStr : String) :
    List (String × String) → SDFExtParsed → Except String SDFExtParsed
  | [], sdf => .ok sdf
  | (tag, value) :: rest, sdf => do
    let sdf1 ← parseSDFExtElem { sdf with oldLinkName := refStr } tag value
    parseSDFExtChildren refStr rest sdf1

/-- `URDF2SDF::ParseSDFExtension(TiXmlDocument&)`: for each `<sdf>` element,
take its `reference` attribute (empty when absent), create the key in
`g_extensions` when missing, parse the children into a fresh record, and
push the record onto the key's list. -/
def ParseSDFExtension :
    List SDFElemX → List (String × List SDFExtParsed) →
    Except String (List (String × List SDFExtParsed))
  | [], tbl => .ok tbl
  | el :: rest, tbl => do
    let refStr := el.reference.getD ""
    let tbl1 := if (alFind tbl refStr).isSome then tbl
                else tbl ++ [(refStr, [])]
    let record ← parseSDFExtChildren refStr el.childElems initialSDFExt
    let tbl2 := alSet tbl1 refStr (((alFind tbl1 refStr).getD []) ++ [record])
    ParseSDFExtension rest tbl2

/-- The result of `urdf::parseURDF` (external), as the converter uses it. -/
structure RobotModel where
  name : String
  root : RLink

/-- A URDF input string, as the two external parses expose it to
`InitModelString`: the parsed robot model (`none` when the parse fails) and
the `<sdf>` extension elements found by the TinyXML re-parse. -/
structure URDFInputModel where
  robotModel : Option RobotModel
  sdfElems : List SDFElemX

/-- The returned `TiXmlDocument`, reduced to what the claims observe: `none`
models the empty document; otherwise the `<sdf version>` attribute, the model
name, and the emitted link names.  `errorsLogged` counts `sdferr` lines. -/
structure ConvOut where
  doc : Option (String × String × List String)
  errorsLogged : Nat
  deriving DecidableEq, Repr

/-- `URDF2SDF::InitModelString(const std::string&, bool)`: parse the robot
model; when that fails, log an error and return the empty document.
Otherwise parse the SDF extensions (which can throw), run the fixed joint
reduction (`g_reduceFixedJoints` defaults to true), emit links with
`CreateSDF` — starting from the root's children when the root is the world
link — and return a document tagged version `"1.3"`. -/
def URDF2SDF.InitModelString (input : URDFInputModel)
    (_enforceLimits : Bool) : Except String ConvOut :=
  match input.robotModel with
  | none => .ok ⟨none, 1⟩
  | some robot => do
    let _ext ← ParseSDFExtension input.sdfElems []
    let _lumps := ReduceFixedJoints none robot.root
    let emitted :=
      if robot.root.name = "world" then
        (createSDFChildList true "world" robot.root.children).1
      else (CreateSDF true none none robot.root).1
    .ok ⟨some ("1.3", robot.name, emitted), 0⟩

deriving instance DecidableEq for Except

/-- Fixture for C7: a string that does not parse as a robot model. -/
def exParseFailInput : URDFInputModel := ⟨none, []⟩

/-- Fixture for C7: a string whose robot model parses, carrying an `<sdf>`
extension whose `dampingFactor` is not numeric. -/
def exBadDampingInput : URDFInputModel :=
  ⟨some ⟨"robot1", .mk "base" (some 1) []⟩,
   [⟨some "link1", [("dampingFactor", "not_a_number")]⟩]⟩

/-- C7: when the URDF model parse fails, `InitModelString` returns normally
with an empty output document and one logged error — but it is not
exception-free for every input string: on a parseable robot whose
`dampingFactor` extension value is not numeric, the uncaught
`boost::lexical_cast<double>` in `ParseSDFExtension` propagates a
`bad_lexical_cast` across the conversion boundary. -/
theorem init_model_string_exception_behavior :
    URDF2SDF.InitModelString exParseFailInput true = Except.ok ⟨none, 1⟩ ∧
    URDF2SDF.InitModelString exBadDampingInput true
      = Except.error "bad lexical cast: not_a_number" :=
  ⟨rfl, by decide⟩
